import Mathlib

/-!
Verification of the mathics-core excerpt: the builtin symbols of
`mathics/builtin/system.py`, the interned symbol catalogue of
`mathics/core/systemsymbols.py`, and the rule-dispatch contract they
depend on.  Python code is shallowly embedded: pure handlers become Lean
functions, the mutable interpreter state (the CPython int/str conversion
limit, the OS environment, the definition store) is passed explicitly,
and fallible Python calls return `Except`.
-/

namespace Mathics

/-- Mathics expression trees, following `mathics.core`:
`Integer` and `String` atoms (`mathics.core.atoms`), `Symbol`
(`mathics.core.symbols`), `ListExpression` (`mathics.core.list`) and
compound `Expression` (`mathics.core.expression`). -/
inductive MExpr where
  | MInteger (n : Int)
  | MString (s : String)
  | MSymbol (name : String)
  | MList (elts : List MExpr)
  | MExpression (head : String) (elts : List MExpr)

mutual

/-- Structural equality of expressions (the `sameQ` identity the pattern
matcher uses for literal sub-patterns). -/
def MExpr.beq : MExpr → MExpr → Bool
  | .MInteger a, .MInteger b => a == b
  | .MString a, .MString b => a == b
  | .MSymbol a, .MSymbol b => a == b
  | .MList xs, .MList ys => MExpr.beqList xs ys
  | .MExpression h xs, .MExpression g ys => h == g && MExpr.beqList xs ys
  | _, _ => false

/-- Elementwise `MExpr.beq` on argument lists. -/
def MExpr.beqList : List MExpr → List MExpr → Bool
  | [], [] => true
  | x :: xs, y :: ys => MExpr.beq x y && MExpr.beqList xs ys
  | _, _ => false

end

/-- Interned constant `SymbolFailed = Symbol("System`$Failed")` —
systemsymbols.py line 89. -/
def SymbolFailed : MExpr := .MSymbol "System`$Failed"

/-- Interned constant `SymbolRule = Symbol("System`Rule")` —
systemsymbols.py line 200. -/
def SymbolRule : MExpr := .MSymbol "System`Rule"

/-- Rendering of an atom used when a message template argument is
formatted (Python `str` of the boxed value; only the atoms that reach
message slots in the modelled code are needed). -/
def MExpr.display : MExpr → String
  | .MInteger n => toString n
  | .MString s => s
  | .MSymbol name => name
  | .MList _ => "\x7b...\x7d"
  | .MExpression h _ => h ++ "[...]"

/-- A diagnostic as recorded by `evaluation.message(symbol, tag, args)`:
owning symbol name, tag, and the formatted text (spec §3: "(owning
Symbol, tag string, formatted text)"). -/
structure Message where
  symbol : String
  tag : String
  text : String
deriving DecidableEq, Repr

/-- The message template of `MaxLengthIntStringConversion.messages`
(system.py line 92): `"inv": "`1` is not 0 or an Integer value >640."`. -/
def inv_template : String := "`1` is not 0 or an Integer value >640."

/-- Instantiate a one-argument message template over its characters:
every occurrence of the placeholder `` `1` `` is replaced by the
displayed argument, other characters are kept. -/
def substTemplate : List Char → String → String
  | [], _ => ""
  | '\u0060' :: '1' :: '\u0060' :: rest, arg => arg ++ substTemplate rest arg
  | c :: rest, arg => String.singleton c ++ substTemplate rest arg

/-- Instantiate a one-argument message template: the placeholder `` `1` ``
is replaced by the displayed argument. -/
def renderMessage (tmpl arg : String) : String := substTemplate tmpl.data arg

/-- The message `evaluation.message("$MaxLengthIntStringConversion",
"inv", expr)` emits (system.py lines 110 and 115). -/
def invMessage (expr : MExpr) : Message :=
  ⟨"$MaxLengthIntStringConversion", "inv", renderMessage inv_template expr.display⟩

/-- The CPython interpreter state the `$MaxLengthIntStringConversion`
handlers touch: whether `sys.set_int_max_str_digits` /
`sys.get_int_max_str_digits` exist (they do exactly on Python >= 3.11;
on older versions looking them up raises `AttributeError`), and the
current conversion limit. -/
structure PyIntState where
  hasIntMaxStrDigits : Bool
  intMaxStrDigits : Int
deriving DecidableEq, Repr

/-- Exceptions the embedded Python fragments can raise. -/
inductive PyExc where
  | attributeError
  | valueError
  | typeError
deriving DecidableEq, Repr

/-- Python builtin `sys.set_int_max_str_digits(v)`: `AttributeError` when the function
does not exist (Python < 3.11); `ValueError` unless `v == 0` or
`v >= 640` (640 is `sys.int_info.str_digits_check_threshold`);
otherwise the limit is set. -/
def set_int_max_str_digits (st : PyIntState) (v : Int) :
    Except PyExc PyIntState :=
  if !st.hasIntMaxStrDigits then .error .attributeError
  else if v = 0 ∨ 640 ≤ v then .ok ⟨st.hasIntMaxStrDigits, v⟩
  else .error .valueError

/-- Python builtin `sys.get_int_max_str_digits()`: `AttributeError` when absent,
the current limit otherwise. -/
def get_int_max_str_digits (st : PyIntState) : Except PyExc Int :=
  if st.hasIntMaxStrDigits then .ok st.intMaxStrDigits
  else .error .attributeError

namespace MaxLengthIntStringConversion

/-- Method `MaxLengthIntStringConversion.evaluate` (system.py lines 96-100):
`Integer(sys.get_int_max_str_digits())`, falling back to `Integer0`
on `AttributeError`. -/
def evaluate (st : PyIntState) : MExpr :=
  match get_int_max_str_digits st with
  | .ok n => .MInteger n
  | .error _ => .MInteger 0

/-- Method `MaxLengthIntStringConversion.eval_set` (system.py lines 102-116),
the handler of the rule `Set[$MaxLengthIntStringConversion, expr_]`.
Returns the replacement expression, the messages emitted, and the
updated interpreter state; every path returns normally. -/
def eval_set (st : PyIntState) (expr : MExpr) :
    MExpr × List Message × PyIntState :=
  match expr with
  | .MInteger v =>
    match set_int_max_str_digits st v with
    | .ok st2 => (evaluate st2, [], st2)
    | .error .attributeError =>
      if v ≠ 0 ∧ v < 640 then (.MInteger 0, [invMessage expr], st)
      else (.MInteger 0, [], st)
    | .error _ => (evaluate st, [invMessage expr], st)
  | _ => (evaluate st, [invMessage expr], st)

/-- Method `MaxLengthIntStringConversion.eval_setdelayed` (system.py lines
118-120), the handler of `SetDelayed[$MaxLengthIntStringConversion,
expr_]`.  Its body is `return self.eval_set(expr)`: the bound method
`eval_set` requires the two positional arguments `expr` and
`evaluation` but is given only `expr`, so CPython raises
`TypeError: eval_set() missing 1 required positional argument:
'evaluation'` before the body of `eval_set` runs.  The embedding
therefore returns that exception on every input. -/
def eval_setdelayed (_st : PyIntState) (_expr : MExpr) :
    Except PyExc (MExpr × List Message × PyIntState) :=
  .error .typeError

end MaxLengthIntStringConversion

namespace Environment

/-- Method `Environment.eval` (system.py lines 155-161), the handler of the
rule `Environment[var_String]`: the OS environment is an association
of variable names to values; a missing variable yields the `$Failed`
sentinel, a present one its value as a `String` atom. -/
def eval (env : List (String × String)) (var : String) : MExpr :=
  match env.lookup var with
  | none => SymbolFailed
  | some v => .MString v

end Environment

namespace Machine

/-- Method `Machine.evaluate` (system.py lines 216-217):
`String(sys.platform)`. -/
def evaluate (platform : String) : MExpr := .MString platform

end Machine

namespace SystemID

/-- Method `SystemID.evaluate` (system.py lines 421-422):
`String(sys.platform)`. -/
def evaluate (platform : String) : MExpr := .MString platform

end SystemID

namespace SystemWordLength

/-- The halving loop of `SystemWordLength.evaluate` (system.py lines
443-445): `while not sys.maxsize > 2**size: size >>= 1`.  The loop
variable strictly decreases while positive; from `size = 0` the loop
either exits (when `maxsize > 1`) or repeats `size = 0` forever, which
the embedding reports as `none`. -/
def halvingLoop (maxsize : Nat) (size : Nat) : Option Nat :=
  if maxsize > 2 ^ size then some size
  else if size = 0 then none
  else halvingLoop maxsize (size / 2)
termination_by size
decreasing_by rename_i hsz; exact Nat.div_lt_self (Nat.pos_of_ne_zero hsz) one_lt_two

/-- Method `SystemWordLength.evaluate` (system.py lines 439-446): run the
halving loop from `size = 128` and return `Integer(size << 1)`. -/
def evaluate (maxsize : Nat) : Option MExpr :=
  (halvingLoop maxsize 128).map fun size => .MInteger (2 * size)

/-- The successive values the loop variable takes: 128, 64, ..., 2, 1, 0. -/
def halvingSeq : List Nat := [128, 64, 32, 16, 8, 4, 2, 1, 0]

end SystemWordLength

namespace ScriptCommandLine

/-- Method `ScriptCommandLine.evaluate` (system.py lines 376-384):
`sys.argv.index("--")` is the index of the first `"--"` (a missing one
raises `ValueError`, caught to return the empty list); the script name
is `""` when that index is 0 and `sys.argv[dash_index - 1]` otherwise;
the result lists the script name followed by `sys.argv[dash_index + 1:]`,
each as a `String` atom. -/
def evaluate (argv : List String) : MExpr :=
  match argv.findIdx? (· == "--") with
  | none => .MList []
  | some dash_index =>
    let scriptname := if dash_index = 0 then "" else argv.getD (dash_index - 1) ""
    .MList ((scriptname :: argv.drop (dash_index + 1)).map .MString)

end ScriptCommandLine

/-! ### The rule-dispatch core, modelled from the spec

The dispatch engine, definition store and symbol interner live in
`mathics.core` modules (`mathics.core.builtin`, `mathics.core.symbols`,
`mathics.core.definitions`, `mathics.core.evaluation`) that the two
excerpted files import but that are not part of the excerpt; they are
modelled here from the spec's component design (§4.1-§4.4, §4.6). -/

/-- Modelled from the spec: the declarative pattern descriptor of §4.3
and the design note "explicit declarative pattern descriptor type
(tagged variant: literal, typed-wildcard, head-match, ...)" — enough to
express the builtin patterns `Foo[x_Integer]`, `Environment[var_String]`
and `Set[$MaxLengthIntStringConversion, expr_]`. -/
inductive Pattern where
  | blank (var : String)
  | blankInteger (var : String)
  | blankString (var : String)
  | literal (e : MExpr)
  | headPat (head : String) (args : List Pattern)

/-- Pattern-variable bindings produced by a successful match. -/
abbrev Bindings : Type := List (String × MExpr)

mutual

/-- Modelled from the spec: the Pattern Matcher capability of §6,
`match(pattern_spec, expression) -> Option<Bindings>` — structural
match of one expression against one pattern descriptor. -/
def matchPat : Pattern → MExpr → Option Bindings
  | .blank v, e => some [(v, e)]
  | .blankInteger v, .MInteger n => some [(v, .MInteger n)]
  | .blankInteger _, _ => none
  | .blankString v, .MString s => some [(v, .MString s)]
  | .blankString _, _ => none
  | .literal l, e => if MExpr.beq l e then some [] else none
  | .headPat h ps, .MExpression g es =>
    if h = g then matchArgs ps es else none
  | .headPat _ _, _ => none

/-- Match the argument patterns against the argument list
positionally, concatenating the bindings. -/
def matchArgs : List Pattern → List MExpr → Option Bindings
  | [], [] => some []
  | p :: ps, e :: es =>
    match matchPat p e with
    | none => none
    | some b =>
      match matchArgs ps es with
      | none => none
      | some bs => some (b ++ bs)
  | _, _ => none

end

/-- Modelled from the spec: the `RewriteResult` of §4.4:
`{Rewritten(new_expression), Unchanged, Failed(message)}`. -/
inductive RewriteResult where
  | Rewritten (e : MExpr)
  | Unchanged
  | Failed

/-- Modelled from the spec: a Rule of §3, a pair (Pattern, Handler); a
handler takes the bound pattern variables and produces a rewrite
result together with the messages it emits through the channel. -/
structure MRule where
  pattern : Pattern
  handler : Bindings → RewriteResult × List Message

/-- Modelled from the spec: the Dispatch Engine of §4.4 — walk the
applicable rule list in registration order, invoke the handler of the
first rule whose pattern matches (no further rules are tried), and
return `Unchanged` with no messages when no rule matches. -/
def dispatch (rules : List MRule) (e : MExpr) : RewriteResult × List Message :=
  match rules with
  | [] => (.Unchanged, [])
  | r :: rest =>
    match matchPat r.pattern e with
    | some b => r.handler b
    | none => dispatch rest e

/-- Modelled from the spec: the Definition record of §3 — attributes
plus the four ordered rule lists (own-, down-, sub-, up-values). -/
structure Definition where
  attributes : List String
  ownvalues : List MRule
  downvalues : List MRule
  subvalues : List MRule
  upvalues : List MRule

/-- The empty Definition a symbol gets on first access (§4.2: "creates
an empty Definition with no attributes/rules"). -/
def emptyDefinition : Definition := ⟨[], [], [], [], []⟩

/-- The four position-classes of §4.4 step 1. -/
inductive PositionClass where
  | own
  | down
  | sub
  | up

/-- The rule list a Definition holds for a position-class. -/
def Definition.rulesFor (d : Definition) : PositionClass → List MRule
  | .own => d.ownvalues
  | .down => d.downvalues
  | .sub => d.subvalues
  | .up => d.upvalues

/-- Modelled from the spec: the Definition Store of §4.2, keyed by
symbol name, with lazy creation on first access. -/
def DefinitionStore : Type := List (String × Definition)

/-- Modelled from the spec: `get_or_create(symbol)` (§4.2), the stored Definition, or a fresh
empty one on first access. -/
def get_or_create (st : DefinitionStore) (s : String) : Definition :=
  (st.lookup s).getD emptyDefinition

/-- Modelled from the spec: `get_attributes(symbol)` (§6). -/
def get_attributes (st : DefinitionStore) (s : String) : List String :=
  (get_or_create st s).attributes

/-- Modelled from the spec: `clear(symbol)` (§4.2), "removes all rules and resets attributes" —
the symbol's Definition is replaced by the empty one; other symbols'
Definitions are untouched. -/
def clear (st : DefinitionStore) (s : String) : DefinitionStore :=
  (s, emptyDefinition) :: st

/-- Modelled from the spec: the Symbol Interner of §4.1 — a session
table from fully-qualified names to symbol identities, together with
the next fresh identity. -/
structure InternState where
  table : List (String × Nat)
  next : Nat

/-- The empty interner a session starts with. -/
def InternState.empty : InternState := ⟨[], 0⟩

/-- Modelled from the spec: `intern(name) -> SymbolId` (§4.1), the existing identity when the
name is already interned, otherwise a fresh identity recorded in the
table. -/
def intern (st : InternState) (name : String) : InternState × Nat :=
  match st.table.lookup name with
  | some id => (st, id)
  | none => (⟨(name, st.next) :: st.table, st.next + 1⟩, st.next)

/-- The interner invariant: every identity in the table is below
`next`, and no identity is assigned to two distinct names. -/
def InternState.WF (st : InternState) : Prop :=
  (∀ n i, st.table.lookup n = some i → i < st.next) ∧
  (∀ n₁ n₂ i, st.table.lookup n₁ = some i → st.table.lookup n₂ = some i →
    n₁ = n₂)

/-- The spec's specific-shape example rule, a rule for
`Set[ConstantSymbol, IntegerLiteral]`:
`Set[$MaxLengthIntStringConversion, x_Integer]`. -/
def setIntegerRule : MRule :=
  ⟨.headPat "System`Set"
      [.literal (.MSymbol "System`$MaxLengthIntStringConversion"),
        .blankInteger "x"],
    fun _ => (.Rewritten (.MInteger 1), [])⟩

/-- The spec's catch-all example rule, a generic
`Set[ConstantSymbol, _]`: `Set[$MaxLengthIntStringConversion, x_]`. -/
def setCatchAllRule : MRule :=
  ⟨.headPat "System`Set"
      [.literal (.MSymbol "System`$MaxLengthIntStringConversion"),
        .blank "x"],
    fun _ => (.Rewritten (.MInteger 2), [])⟩

/-- The spec's §8 example rule: `Foo[x_Integer]` with the doubling
handler, `evaluate(Foo[21]) = (42, [])`. -/
def fooIntegerRule : MRule :=
  ⟨.headPat "Global`Foo" [.blankInteger "x"],
    fun b =>
      match b.lookup "x" with
      | some (.MInteger n) => (.Rewritten (.MInteger (2 * n)), [])
      | _ => (.Unchanged, [])⟩

/-- A sample definition store holding one attribute and one down-value
rule for `Global`Foo`. -/
def sampleStore : DefinitionStore :=
  [("Global`Foo", ⟨["System`Protected"], [], [fooIntegerRule], [], []⟩)]

/-! ### Theorems -/

/-- C1: assigning the integer 10 to `$MaxLengthIntStringConversion` — a
domain-invalid value, the domain being 0 or an Integer greater than
640 — emits exactly the message
"10 is not 0 or an Integer value >640." through the message channel and
returns the previously current value of the constant
(`self.evaluate(evaluation)` on Python >= 3.11, `Integer0` — also the
current value — below), leaving the interpreter state unchanged; the
handler is a total function into a plain tuple, so no exception
propagates and sibling evaluation can continue. -/
theorem eval_set_ten_fails_with_message (st : PyIntState) :
    MaxLengthIntStringConversion.eval_set st (.MInteger 10) =
      (MaxLengthIntStringConversion.evaluate st,
        [⟨"$MaxLengthIntStringConversion", "inv",
           "10 is not 0 or an Integer value >640."⟩], st) := by
  obtain ⟨hasFn, d⟩ := st
  have hmsg : invMessage (.MInteger 10) =
      ⟨"$MaxLengthIntStringConversion", "inv",
        "10 is not 0 or an Integer value >640."⟩ := rfl
  cases hasFn <;>
    simp [MaxLengthIntStringConversion.eval_set,
      MaxLengthIntStringConversion.evaluate, set_int_max_str_digits,
      get_int_max_str_digits, hmsg]

/-- C1 witness: the concrete Python >= 3.11 state with current limit
4300 (the CPython default). -/
theorem eval_set_ten_fails_with_message_witness :
    MaxLengthIntStringConversion.eval_set ⟨true, 4300⟩ (.MInteger 10) =
      (.MInteger 4300,
        [⟨"$MaxLengthIntStringConversion", "inv",
           "10 is not 0 or an Integer value >640."⟩], ⟨true, 4300⟩) :=
  eval_set_ten_fails_with_message ⟨true, 4300⟩

/-- C4 (code bug): `eval_setdelayed` is `return self.eval_set(expr)`,
passing one argument to a method that requires the two positional
arguments `expr` and `evaluation`; CPython therefore raises `TypeError`
on every input, so `SetDelayed[$MaxLengthIntStringConversion, e]` never
produces the result and messages of the corresponding `Set` — it
escapes as a thrown exception instead. -/
theorem eval_setdelayed_raises_typeError (st : PyIntState) (e : MExpr) :
    MaxLengthIntStringConversion.eval_setdelayed st e =
      .error .typeError := rfl

/-- C5: `Environment[v]` evaluates to the `$Failed` sentinel exactly
when `v` names no variable of the OS environment, and to a `String`
holding the variable's value otherwise; the sentinel is an ordinary
replacement expression, not a thrown error. -/
theorem environment_eval_failed_iff (env : List (String × String))
    (v : String) :
    (Environment.eval env v = SymbolFailed ↔ env.lookup v = none) ∧
    ∀ s, env.lookup v = some s → Environment.eval env v = .MString s := by
  cases h : env.lookup v with
  | none => simp [Environment.eval, h]
  | some s =>
    refine ⟨?_, ?_⟩
    · simp [Environment.eval, h, SymbolFailed]
    · intro t ht
      rw [Option.some.injEq] at ht
      simp [Environment.eval, h, ht]

/-- C5 witness: a concrete environment with `HOME` bound and `TERM`
absent. -/
theorem environment_eval_failed_iff_witness :
    Environment.eval [("HOME", "/root")] "HOME" = .MString "/root" ∧
    Environment.eval [("HOME", "/root")] "TERM" = SymbolFailed :=
  ⟨(environment_eval_failed_iff [("HOME", "/root")] "HOME").2 "/root" rfl,
   (environment_eval_failed_iff [("HOME", "/root")] "TERM").1.mpr rfl⟩

/-- C2: registration order is the only tie-break.  When rule `R₁` was
registered before rule `R₂` on the same symbol and position-class, no
rule before `R₁` matches, and both `R₁` and `R₂` match the incoming
expression, dispatch selects `R₁` and invokes only its handler: the
later-registered `R₂` is never preferred. -/
theorem dispatch_first_registered
    (pre : List MRule) (r₁ : MRule) (mid : List MRule) (r₂ : MRule)
    (post : List MRule) (e : MExpr) (b₁ b₂ : Bindings)
    (hpre : ∀ r ∈ pre, matchPat r.pattern e = none)
    (h₁ : matchPat r₁.pattern e = some b₁)
    (_h₂ : matchPat r₂.pattern e = some b₂) :
    dispatch (pre ++ r₁ :: (mid ++ r₂ :: post)) e = r₁.handler b₁ := by
  induction pre with
  | nil => simp [dispatch, h₁]
  | cons r rest ih =>
    have hr : matchPat r.pattern e = none := hpre r (List.mem_cons_self _ _)
    simpa [dispatch, hr] using
      ih fun q hq => hpre q (List.mem_cons_of_mem _ hq)

/-- C2 witness: the spec's own scenario — the specific rule
`Set[$MaxLengthIntStringConversion, x_Integer]` registered before the
catch-all `Set[$MaxLengthIntStringConversion, x_]`; both match
`Set[$MaxLengthIntStringConversion, 5]` and the first one's handler is
invoked. -/
theorem dispatch_first_registered_witness :
    dispatch [setIntegerRule, setCatchAllRule]
      (.MExpression "System`Set"
        [.MSymbol "System`$MaxLengthIntStringConversion", .MInteger 5]) =
      (.Rewritten (.MInteger 1), []) :=
  (dispatch_first_registered [] setIntegerRule [] setCatchAllRule []
      (.MExpression "System`Set"
        [.MSymbol "System`$MaxLengthIntStringConversion", .MInteger 5])
      [("x", .MInteger 5)] [("x", .MInteger 5)]
      (fun r hr => absurd hr (List.not_mem_nil r)) rfl rfl).trans rfl

/-- C3: when no registered rule of the dispatched symbol matches the
expression, dispatch returns `Unchanged` and emits no messages — the
expression comes back as it was. -/
theorem dispatch_no_match (rules : List MRule) (e : MExpr)
    (h : ∀ r ∈ rules, matchPat r.pattern e = none) :
    dispatch rules e = (.Unchanged, []) := by
  induction rules with
  | nil => rfl
  | cons r rest ih =>
    have hr : matchPat r.pattern e = none := h r (List.mem_cons_self _ _)
    simpa [dispatch, hr] using
      ih fun q hq => h q (List.mem_cons_of_mem _ hq)

/-- C3 witness: the spec's own scenario — `Foo["x"]` against the single
registered rule `Foo[x_Integer]` (whose only pattern requires an
Integer argument) yields `Unchanged` and no messages. -/
theorem dispatch_no_match_witness :
    dispatch [fooIntegerRule] (.MExpression "Global`Foo" [.MString "x"]) =
      (.Unchanged, []) :=
  dispatch_no_match [fooIntegerRule]
    (.MExpression "Global`Foo" [.MString "x"])
    (by
      intro r hr
      rw [List.mem_singleton] at hr
      subst hr
      rfl)

/-- C7: after `clear(symbol)`, `get_attributes(symbol)` is the empty
attribute set, dispatch on any of the symbol's four rule lists returns
`Unchanged` with no messages for every expression (so no previously
matching rule fires), and every other symbol's Definition is exactly
what it was before. -/
theorem clear_resets_symbol (st : DefinitionStore) (s : String) :
    get_attributes (clear st s) s = [] ∧
    (∀ pos e, dispatch ((get_or_create (clear st s) s).rulesFor pos) e =
      (.Unchanged, [])) ∧
    ∀ t, t ≠ s → get_or_create (clear st s) t = get_or_create st t := by
  have hself : get_or_create (clear st s) s = emptyDefinition := by
    simp [get_or_create, clear, List.lookup_cons]
  refine ⟨?_, ?_, ?_⟩
  · simp [get_attributes, hself, emptyDefinition]
  · intro pos e
    rw [hself]
    cases pos <;> rfl
  · intro t ht
    have hbeq : (t == s) = false := beq_eq_false_iff_ne.mpr ht
    simp [get_or_create, clear, List.lookup_cons, hbeq]

/-- C7 witness: clearing `Global`Foo` in a store where it carried an
attribute and a down-value rule matching `Foo[21]`: afterwards the
attributes are empty, `Foo[21]` no longer fires any rule, and the
untouched symbol `Global`g` keeps its Definition. -/
theorem clear_resets_symbol_witness :
    get_attributes (clear sampleStore "Global`Foo") "Global`Foo" = [] ∧
    dispatch
      ((get_or_create (clear sampleStore "Global`Foo")
          "Global`Foo").rulesFor .down)
      (.MExpression "Global`Foo" [.MInteger 21]) = (.Unchanged, []) ∧
    get_or_create (clear sampleStore "Global`Foo") "Global`g" =
      get_or_create sampleStore "Global`g" :=
  ⟨(clear_resets_symbol sampleStore "Global`Foo").1,
    (clear_resets_symbol sampleStore "Global`Foo").2.1 .down
      (.MExpression "Global`Foo" [.MInteger 21]),
    (clear_resets_symbol sampleStore "Global`Foo").2.2 "Global`g"
      (by decide)⟩

/-- Binding into `some ∘ f` is mapping `f`. -/
theorem option_bind_some_eq_map {α β : Type} (f : α → β) (o : Option α) :
    o.bind (fun a => some (f a)) = o.map f := by
  cases o <;> rfl

/-- Unfolding `List.find?` over a cons cell, written with `if`. -/
theorem find?_cons_ite {α : Type} (p : α → Bool) (a : α) (l : List α) :
    (a :: l).find? p = if p a then some a else l.find? p := by
  by_cases h : p a
  · simp [List.find?_cons_of_pos _ h, h]
  · simp [List.find?_cons_of_neg _ (by simpa using h), h]

/-- C8: the halving loop of `$SystemWordLength` computes the first `s`
in the sequence 128, 64, 32, 16, ... with `maxsize > 2 ^ s` and
returns the Integer `2 * s`; whenever `maxsize >= 2` the loop
terminates (the result is `some _`).  In particular the claim's 64-bit
instance `maxsize = 2 ^ 63 - 1` gives Integer 64 (see the witness). -/
theorem systemWordLength_eval (maxsize : Nat) (h : 2 ≤ maxsize) :
    SystemWordLength.evaluate maxsize =
      (SystemWordLength.halvingSeq.find?
          (fun s => decide (maxsize > 2 ^ s))).map
        (fun s : Nat => MExpr.MInteger (2 * (s : Int))) ∧
    (SystemWordLength.evaluate maxsize).isSome := by
  have e : ∀ s : Nat, SystemWordLength.halvingLoop maxsize s =
      if maxsize > 2 ^ s then some s
      else if s = 0 then none
      else SystemWordLength.halvingLoop maxsize (s / 2) := by
    intro s
    rw [SystemWordLength.halvingLoop]
  have hfind : SystemWordLength.evaluate maxsize =
      (SystemWordLength.halvingSeq.find?
          (fun s => decide (maxsize > 2 ^ s))).map
        (fun s : Nat => MExpr.MInteger (2 * (s : Int))) := by
    simp only [SystemWordLength.evaluate, SystemWordLength.halvingSeq]
    rw [e 128, e 64, e 32, e 16, e 8, e 4, e 2, e 1, e 0]
    norm_num [find?_cons_ite]
    rw [option_bind_some_eq_map]
  refine ⟨hfind, ?_⟩
  rw [hfind]
  have h1 : 1 < maxsize := lt_of_lt_of_le one_lt_two h
  rw [Option.isSome_map', List.find?_isSome]
  exact ⟨0, by simp [SystemWordLength.halvingSeq], by simpa using h1⟩

/-- C8 witness: on 64-bit Python, `sys.maxsize = 2 ^ 63 - 1` and
`$SystemWordLength` evaluates to the Integer 64. -/
theorem systemWordLength_eval_witness :
    2 ≤ 2 ^ 63 - 1 ∧
    SystemWordLength.evaluate (2 ^ 63 - 1) = some (.MInteger 64) :=
  ⟨by norm_num,
    ((systemWordLength_eval (2 ^ 63 - 1) (by norm_num)).1).trans (by rfl)⟩

/-- C9: `$Machine` and `$SystemID` are observably equivalent — both
evaluate to `String(sys.platform)`, so on every system state they
return the same `String` atom. -/
theorem machine_eq_systemID (platform : String) :
    Machine.evaluate platform = SystemID.evaluate platform := rfl

/-- A fresh interner session satisfies the interner invariant. -/
theorem empty_wf : InternState.empty.WF := by
  refine ⟨?_, ?_⟩ <;> intros <;> simp_all [InternState.empty]

/-- C6: interning is idempotent and identity-reflecting.  In any
well-formed session state, interning `n₁` and then `n₂` yields the
same symbol identity exactly when the fully-qualified names are equal:
`intern(n) == intern(n)` across repeated calls, and distinct names
never share an identity. -/
theorem intern_id_eq_iff_name_eq (st : InternState) (hwf : st.WF)
    (n₁ n₂ : String) :
    (intern (intern st n₁).1 n₂).2 = (intern st n₁).2 ↔ n₂ = n₁ := by
  obtain ⟨hbound, hinj⟩ := hwf
  cases h₁ : st.table.lookup n₁ with
  | some i₁ =>
    have e₁ : intern st n₁ = (st, i₁) := by simp [intern, h₁]
    rw [e₁]
    cases h₂ : st.table.lookup n₂ with
    | some i₂ =>
      have e₂ : intern st n₂ = (st, i₂) := by simp [intern, h₂]
      rw [e₂]
      show i₂ = i₁ ↔ n₂ = n₁
      constructor
      · intro hid
        exact hinj n₂ n₁ i₁ (by rw [h₂, hid]) h₁
      · intro hname
        subst hname
        exact (Option.some.inj (h₁.symm.trans h₂)).symm
    | none =>
      have e₂ : intern st n₂ =
          (⟨(n₂, st.next) :: st.table, st.next + 1⟩, st.next) := by
        simp [intern, h₂]
      rw [e₂]
      show st.next = i₁ ↔ n₂ = n₁
      constructor
      · intro hid
        have := hbound n₁ i₁ h₁
        omega
      · intro hname
        subst hname
        exact (Option.some_ne_none i₁ (h₁.symm.trans h₂)).elim
  | none =>
    have e₁ : intern st n₁ =
        (⟨(n₁, st.next) :: st.table, st.next + 1⟩, st.next) := by
      simp [intern, h₁]
    rw [e₁]
    by_cases hn : n₂ = n₁
    · subst hn
      have hl : ((n₂, st.next) :: st.table).lookup n₂ = some st.next := by
        simp [List.lookup_cons]
      have e₂ : intern ⟨(n₂, st.next) :: st.table, st.next + 1⟩ n₂ =
          (⟨(n₂, st.next) :: st.table, st.next + 1⟩, st.next) := by
        simp [intern, hl]
      rw [e₂]
      simp
    · have hbeq : (n₂ == n₁) = false := beq_eq_false_iff_ne.mpr hn
      have hl : ((n₁, st.next) :: st.table).lookup n₂ =
          st.table.lookup n₂ := by
        simp [List.lookup_cons, hbeq]
      cases h₂ : st.table.lookup n₂ with
      | some j =>
        have e₂ : intern ⟨(n₁, st.next) :: st.table, st.next + 1⟩ n₂ =
            (⟨(n₁, st.next) :: st.table, st.next + 1⟩, j) := by
          simp [intern, hl, h₂]
        rw [e₂]
        show j = st.next ↔ n₂ = n₁
        constructor
        · intro hid
          have := hbound n₂ j h₂
          omega
        · intro hname
          exact (hn hname).elim
      | none =>
        have hl₂ : ((n₁, st.next) :: st.table).lookup n₂ = none :=
          hl.trans h₂
        have e₂ : intern ⟨(n₁, st.next) :: st.table, st.next + 1⟩ n₂ =
            (⟨(n₂, st.next + 1) :: (n₁, st.next) :: st.table,
              st.next + 1 + 1⟩, st.next + 1) := by
          simp [intern, hl₂]
        rw [e₂]
        show st.next + 1 = st.next ↔ n₂ = n₁
        constructor
        · intro hid
          omega
        · intro hname
          exact (hn hname).elim

/-- C6 witness: a fresh session, interning `System`Pi` twice yields the
same identity. -/
theorem intern_id_eq_iff_name_eq_witness :
    (intern (intern InternState.empty "System`Pi").1 "System`Pi").2 =
      (intern InternState.empty "System`Pi").2 :=
  (intern_id_eq_iff_name_eq InternState.empty empty_wf
    "System`Pi" "System`Pi").mpr rfl

/-- Running `List.findIdx?` from accumulator `acc` returns `acc + i`
when `i` is the position of the first occurrence of `tgt`. -/
theorem findIdx?_go_of_first (tgt : String) (l : List String) (i : Nat)
    (hlen : i < l.length) (hi : l.getD i "" = tgt)
    (hfirst : ∀ j, j < i → l.getD j "" ≠ tgt) (acc : Nat) :
    l.findIdx? (· == tgt) acc = some (acc + i) := by
  induction l generalizing i acc with
  | nil => exact absurd hlen (by simp)
  | cons a t ih =>
    cases i with
    | zero =>
      have ha : (a == tgt) = true := by
        rw [beq_iff_eq]
        simpa using hi
      simp [List.findIdx?_cons, ha]
    | succ j =>
      have ha : (a == tgt) = false := by
        rw [beq_eq_false_iff_ne]
        simpa using hfirst 0 (Nat.succ_pos j)
      rw [List.findIdx?_cons, if_neg (by simp [ha])]
      rw [ih j (by simpa using hlen) (by simpa using hi)
        (fun k hk => by simpa using hfirst (k + 1) (Nat.succ_lt_succ hk))
        (acc + 1)]
      congr 1
      omega

/-- The embedding of Python `list.index`, `List.findIdx?`, finds the
index of the first occurrence. -/
theorem findIdx?_of_first (tgt : String) (l : List String) (i : Nat)
    (hlen : i < l.length) (hi : l.getD i "" = tgt)
    (hfirst : ∀ j, j < i → l.getD j "" ≠ tgt) :
    l.findIdx? (· == tgt) = some i := by
  simpa using findIdx?_go_of_first tgt l i hlen hi hfirst 0

/-- C10: `$ScriptCommandLine` evaluates to the empty list when `"--"`
does not occur in the argument vector; when the first `"--"` is at
index `i`, it evaluates to the list of Strings whose first element is
argument `i - 1` (the script name; the empty string when `i = 0`)
followed by every argument after index `i`. -/
theorem scriptCommandLine_spec (argv : List String) :
    ("--" ∉ argv → ScriptCommandLine.evaluate argv = .MList []) ∧
    ∀ i, i < argv.length → argv.getD i "" = "--" →
      (∀ j, j < i → argv.getD j "" ≠ "--") →
      ScriptCommandLine.evaluate argv =
        .MList (((if i = 0 then "" else argv.getD (i - 1) "")
            :: argv.drop (i + 1)).map .MString) := by
  constructor
  · intro hmem
    have hnone : argv.findIdx? (· == "--") = none :=
      List.findIdx?_eq_none_iff.mpr fun x hx => by
        rw [beq_eq_false_iff_ne]
        exact fun hx2 => hmem (hx2 ▸ hx)
    simp [ScriptCommandLine.evaluate, hnone]
  · intro i hlen hi hfirst
    have hsome := findIdx?_of_first "--" argv i hlen hi hfirst
    simp [ScriptCommandLine.evaluate, hsome]

/-- C10 witness: the three scenarios on concrete argument vectors — no
`"--"`, a first `"--"` at index 2 with script name `script.m`, and a
`"--"` at index 0 giving the empty script name. -/
theorem scriptCommandLine_spec_witness :
    ScriptCommandLine.evaluate ["mathics"] = .MList [] ∧
    ScriptCommandLine.evaluate ["mathics", "script.m", "--", "a", "b"] =
      .MList [.MString "script.m", .MString "a", .MString "b"] ∧
    ScriptCommandLine.evaluate ["--", "x"] =
      .MList [.MString "", .MString "x"] :=
  ⟨(scriptCommandLine_spec ["mathics"]).1 (by decide),
    ((scriptCommandLine_spec ["mathics", "script.m", "--", "a", "b"]).2 2
      (by decide) (by decide) (by decide)).trans rfl,
    ((scriptCommandLine_spec ["--", "x"]).2 0
      (by decide) (by decide) (by decide)).trans rfl⟩

end Mathics
